import Mathlib

/-!
Shallow embedding of the obstacle/world core of the realtime car simulator
(the second, current revision of `frontend/obstacles.js`, `frontend/renderer.js`
and the frontend configuration file).  Screen coordinates and sizes are modelled
as real numbers; JavaScript `Math.sqrt` / `Math.sin` / `Math.cos` become their
exact real counterparts.
-/

/-- Mirror of the effective frontend `CONFIG` values used by the obstacle core
(current revision: canvas 1280 by 900, road width 650, car 44 by 78,
`CONFIG.referencePoint` synced to `CONFIG.car`, hence reference point (640, 650),
`sizeConstant` 30, `maxVisible` 20, `detectionHistory` 1). -/
structure Config where
  canvasWidth : ℝ
  canvasHeight : ℝ
  roadWidth : ℝ
  carWidth : ℝ
  carHeight : ℝ
  referenceX : ℝ
  referenceY : ℝ
  sizeConstant : ℝ
  maxVisible : Nat
  detectionHistory : Nat

noncomputable def CONFIG : Config :=
  { canvasWidth := 1280
    canvasHeight := 900
    roadWidth := 650
    carWidth := 44
    carHeight := 78
    referenceX := 640
    referenceY := 650
    sizeConstant := 30
    maxVisible := 20
    detectionHistory := 1 }

/-- Left edge of the road band: `(CONFIG.canvas.width - CONFIG.road.width) / 2`. -/
noncomputable def roadLeft : ℝ := (CONFIG.canvasWidth - CONFIG.roadWidth) / 2

/-- One entry of `CONFIG.cocoClasses` (name, color, size, per-class height ratio).
The source field `heightRatio` is called `heightFactor` here. -/
structure ClassEntry where
  name : String
  color : String
  size : ℝ
  heightFactor : ℝ

/-- `CONFIG.cocoClasses` in JavaScript key-iteration order (ascending integer keys
0, 1, 2, 3, 5, 7, 9, 11). -/
noncomputable def cocoClassList : List ClassEntry :=
  [ { name := "person", color := "#FF6B6B", size := 30, heightFactor := 1.2 }
  , { name := "bicycle", color := "#4ECDC4", size := 40, heightFactor := 2.0 }
  , { name := "car", color := "#45B7D1", size := 50, heightFactor := 1.8 }
  , { name := "motorcycle", color := "#FFA07A", size := 35, heightFactor := 2.2 }
  , { name := "bus", color := "#98D8C8", size := 80, heightFactor := 2.5 }
  , { name := "truck", color := "#6C5CE7", size := 70, heightFactor := 2.3 }
  , { name := "traffic light", color := "#FDCB6E", size := 25, heightFactor := 2.5 }
  , { name := "stop sign", color := "#E17055", size := 30, heightFactor := 1.0 } ]

/-- The `for (const key in CONFIG.cocoClasses)` scan of `setDetectedFrame`:
first entry whose `name` equals the detected class string. -/
noncomputable def findIn : List ClassEntry → String → Option ClassEntry
  | [], _ => none
  | e :: tl, c => if e.name = c then some e else findIn tl c

/-- A detected obstacle as built by `setDetectedFrame` (kind `detected`). -/
structure DetObs where
  id : String
  cls : String
  x : ℝ
  y : ℝ
  width : ℝ
  height : ℝ
  color : String
  distance : ℝ
  aiId : Nat

/-- Kind tag of a non-detected obstacle. -/
inductive WKind
  | random
  | user
deriving DecidableEq

/-- A procedural (`random`) or `user` obstacle stored in `this.obstacles`. -/
structure WorldObs where
  id : String
  kind : WKind
  cls : String
  x : ℝ
  y : ℝ
  width : ℝ
  height : ℝ
  color : String

/-- A raw entry of an `ai/objects` detection batch:
`{id, class, bbox: [x, y, w, h], distance}`. -/
structure RawDetection where
  id : Nat
  cls : String
  bboxX : ℝ
  bboxY : ℝ
  bboxW : ℝ
  bboxH : ℝ
  distance : ℝ

/-- The mutable fields of `ObstacleManager` that the verified operations touch. -/
structure ManagerState where
  obstacles : List WorldObs
  nextId : Nat
  detectionFrames : List (List DetObs)
  obstaclesPassed : Nat

/-- `ObstacleManager.distanceToY`: inverse-depth (0 = far, 255 = close) to screen y.
`minY = 50`, `maxY = CONFIG.referencePoint.y - CONFIG.car.height / 2 - 10`. -/
noncomputable def distanceToY (depthValue : ℝ) : ℝ :=
  let minY : ℝ := 50
  let maxY : ℝ := CONFIG.referenceY - CONFIG.carHeight / 2 - 10
  let norm := min (max (depthValue / 255) 0) 1
  minY + norm * (maxY - minY)

/-- The fallback class info of `setDetectedFrame` for classes not found in
`CONFIG.cocoClasses` (`aiObj.class || 'unknown'`: the empty string is falsy). -/
noncomputable def fallbackClassInfo (cls : String) : ClassEntry :=
  { name := if cls = "" then "unknown" else cls
    color := "#FFFFFF"
    size := 40
    heightFactor := 1.5 }

/-- The per-entry conversion performed by `setDetectedFrame` on one raw detection:
class lookup, width `max 10 (K * bboxW / max depth 1)`, height `width * heightRatio`
(`classInfo.heightRatio || 1.5`, i.e. 1.5 if the ratio is zero), bbox-centre x
re-projected from the 640 px camera frame onto the road band, y from `distanceToY`. -/
noncomputable def convertDetection (a : RawDetection) : DetObs :=
  let depthValue := a.distance
  let classInfo := (findIn cocoClassList a.cls).getD (fallbackClassInfo a.cls)
  let safeDepth := max depthValue 1
  let obsWidth := max 10 (CONFIG.sizeConstant * a.bboxW / safeDepth)
  let hFactor := if classInfo.heightFactor = 0 then 1.5 else classInfo.heightFactor
  let obsHeight := obsWidth * hFactor
  let centreXnorm := (a.bboxX + a.bboxW / 2) / 640
  let x := roadLeft + centreXnorm * CONFIG.roadWidth
  let y := distanceToY depthValue
  { id := "ai_" ++ toString a.id
    cls := classInfo.name
    x := x
    y := y
    width := obsWidth
    height := obsHeight
    color := classInfo.color
    distance := depthValue
    aiId := a.id }

/-- The frame built by `setDetectedFrame` from a whole `ai/objects` batch. -/
noncomputable def convertBatch (batch : List RawDetection) : List DetObs :=
  batch.map convertDetection

/-- The ring-buffer push at the end of `setDetectedFrame`: append the new frame,
then `shift()` (drop the oldest frame) if the length exceeds `N`. -/
def ringPush {α : Type} (n : Nat) (frames : List α) (f : α) : List α :=
  let fs := frames ++ [f]
  if n < fs.length then fs.tail else fs

/-- `ObstacleManager.setDetectedFrame`: convert the batch and push the frame into
the detection ring buffer of depth `CONFIG.obstacles.detectionHistory`. -/
noncomputable def setDetectedFrame (s : ManagerState) (batch : List RawDetection) :
    ManagerState :=
  { s with detectionFrames :=
      ringPush CONFIG.detectionHistory s.detectionFrames (convertBatch batch) }

/-- One `map.set(obj.aiId, obj)` step of `_mergedDetections` on a JavaScript `Map`
represented as a key-unique association list in key-insertion order: if the key is
already present its value is replaced in place, otherwise the pair is appended. -/
def mapSet (m : List DetObs) (o : DetObs) : List DetObs :=
  if m.any (fun e => e.aiId == o.aiId) then
    m.map (fun e => if e.aiId == o.aiId then o else e)
  else
    m ++ [o]

/-- `ObstacleManager._mergedDetections`: fold every buffered frame (oldest first)
into the map and return its values (`Array.from(map.values())`). -/
def mergedDetections (frames : List (List DetObs)) : List DetObs :=
  frames.foldl (fun m f => f.foldl mapSet m) []

/-- Tracking keys of a list of detected obstacles. -/
def keysOf (l : List DetObs) : List Nat := l.map (fun o => o.aiId)

/-- First-`some` choice on options (used to state the last-write-wins lemma). -/
def firstSome {α : Type} : Option α → Option α → Option α
  | some x, _ => some x
  | none, b => b

theorem find?_map_replace_ne (o : DetObs) (k : Nat) (hk : o.aiId ≠ k)
    (m : List DetObs) :
    (m.map (fun e => if e.aiId == o.aiId then o else e)).find? (fun e => e.aiId == k)
      = m.find? (fun e => e.aiId == k) := by
  induction m with
  | nil => rfl
  | cons a tl ih =>
    simp only [List.map_cons]
    by_cases ha : a.aiId = o.aiId
    · have h1 : (if (a.aiId == o.aiId) = true then o else a) = o := by simp [ha]
      rw [h1, List.find?_cons_of_neg _ (by simp [hk]),
        List.find?_cons_of_neg _ (by simp [ha, hk]), ih]
    · have h1 : (if (a.aiId == o.aiId) = true then o else a) = a := by simp [ha]
      rw [h1]
      by_cases hak : a.aiId = k
      · rw [List.find?_cons_of_pos _ (by simp [hak]),
          List.find?_cons_of_pos _ (by simp [hak])]
      · rw [List.find?_cons_of_neg _ (by simp [hak]),
          List.find?_cons_of_neg _ (by simp [hak]), ih]

theorem find?_map_replace_self (o : DetObs) (m : List DetObs)
    (hmem : ∃ e ∈ m, e.aiId = o.aiId) :
    (m.map (fun e => if e.aiId == o.aiId then o else e)).find? (fun e => e.aiId == o.aiId)
      = some o := by
  induction m with
  | nil => simp at hmem
  | cons a tl ih =>
    simp only [List.map_cons]
    by_cases ha : a.aiId = o.aiId
    · have h1 : (if (a.aiId == o.aiId) = true then o else a) = o := by simp [ha]
      rw [h1, List.find?_cons_of_pos _ (by simp)]
    · have h1 : (if (a.aiId == o.aiId) = true then o else a) = a := by simp [ha]
      rw [h1, List.find?_cons_of_neg _ (by simp [ha])]
      apply ih
      obtain ⟨e, he, heq⟩ := hmem
      rcases List.mem_cons.mp he with rfl | he
      · exact absurd heq ha
      · exact ⟨e, he, heq⟩

theorem find?_mapSet (m : List DetObs) (o : DetObs) (k : Nat) :
    (mapSet m o).find? (fun e => e.aiId == k)
      = if o.aiId = k then some o else m.find? (fun e => e.aiId == k) := by
  unfold mapSet
  by_cases hmem : m.any (fun e => e.aiId == o.aiId)
  · rw [if_pos hmem]
    by_cases hk : o.aiId = k
    · subst hk
      rw [if_pos rfl]
      rw [List.any_eq_true] at hmem
      apply find?_map_replace_self
      obtain ⟨e, he, heq⟩ := hmem
      exact ⟨e, he, by simpa using heq⟩
    · rw [if_neg hk, find?_map_replace_ne o k hk]
  · rw [if_neg hmem]
    rw [List.any_eq_true] at hmem
    push_neg at hmem
    by_cases hk : o.aiId = k
    · subst hk
      rw [if_pos rfl]
      have hnone : m.find? (fun e => e.aiId == o.aiId) = none := by
        rw [List.find?_eq_none]
        intro e he
        simpa using fun h => (hmem e he) (by simp [h])
      rw [List.find?_append, hnone]
      simp [List.find?_cons_of_pos]
    · rw [if_neg hk]
      rw [List.find?_append]
      have h1 : ([o].find? (fun e => e.aiId == k)) = none := by
        rw [List.find?_cons_of_neg _ (by simp [hk])]
        rfl
      rw [h1]
      cases m.find? (fun e => e.aiId == k) <;> rfl

theorem find?_foldl_mapSet (l : List DetObs) (acc : List DetObs) (k : Nat) :
    (l.foldl mapSet acc).find? (fun e => e.aiId == k)
      = firstSome ((l.filter (fun e => e.aiId == k)).getLast?)
          (acc.find? (fun e => e.aiId == k)) := by
  induction l generalizing acc with
  | nil => simp [firstSome]
  | cons o tl ih =>
    simp only [List.foldl_cons]
    rw [ih, find?_mapSet]
    by_cases hk : o.aiId = k
    · rw [if_pos hk]
      rw [List.filter_cons, if_pos (by simp [hk])]
      cases hcase : (tl.filter (fun e => e.aiId == k)) with
      | nil => simp [hcase, firstSome]
      | cons b bs =>
        rw [List.getLast?_cons_cons]
        obtain ⟨z, hz⟩ := Option.isSome_iff_exists.mp
          (List.getLast?_isSome.mpr (by simp : (b :: bs) ≠ []))
        rw [hz]
        simp [firstSome]
    · rw [if_neg hk]
      rw [List.filter_cons, if_neg (by simp [hk])]

theorem foldl_mapSet_join (frames : List (List DetObs)) (acc : List DetObs) :
    frames.foldl (fun m f => f.foldl mapSet m) acc = (frames.flatten).foldl mapSet acc := by
  induction frames generalizing acc with
  | nil => rfl
  | cons f rest ih =>
    simp only [List.foldl_cons, List.flatten_cons, List.foldl_append]
    exact ih _

theorem mapSet_not_mem (acc : List DetObs) (o : DetObs)
    (h : o.aiId ∉ keysOf acc) : mapSet acc o = acc ++ [o] := by
  unfold mapSet
  rw [if_neg]
  simp only [List.any_eq_true, beq_iff_eq, not_exists]
  intro e
  rintro ⟨he, heq⟩
  exact h (by simpa [keysOf] using ⟨e, he, heq⟩)

theorem foldl_mapSet_distinct (l : List DetObs) (acc : List DetObs)
    (hdist : (keysOf l).Pairwise (fun a b => a ≠ b))
    (hdisj : ∀ k ∈ keysOf l, k ∉ keysOf acc) :
    l.foldl mapSet acc = acc ++ l := by
  induction l generalizing acc with
  | nil => simp
  | cons o tl ih =>
    simp only [List.foldl_cons]
    have hkeys : keysOf (o :: tl) = o.aiId :: keysOf tl := rfl
    have hnotin : o.aiId ∉ keysOf acc := hdisj o.aiId (by simp [hkeys])
    rw [mapSet_not_mem acc o hnotin, ih]
    · simp
    · exact (List.pairwise_cons.mp (hkeys ▸ hdist)).2
    · intro k hk
      have hkacc : k ∉ keysOf acc := hdisj k (by simp [hkeys, hk])
      have hko : o.aiId ≠ k := (List.pairwise_cons.mp (hkeys ▸ hdist)).1 k hk
      simp [keysOf, List.map_append, hkacc]
      constructor
      · simpa [keysOf] using hkacc
      · exact fun h => hko h.symm

theorem ringPush_depth_one {α : Type} (buf : List α) (h : buf.length ≤ 1) (f : α) :
    ringPush 1 buf f = [f] := by
  unfold ringPush
  match buf, h with
  | [], _ => simp
  | [b], _ => simp

theorem keysOf_convertBatch (batch : List RawDetection) :
    keysOf (convertBatch batch) = batch.map (fun a => a.id) := by
  unfold keysOf convertBatch
  rw [List.map_map]
  rfl

/-- C1: ingesting a batch with pairwise-distinct tracking ids into the depth-1
detection buffer leaves exactly that converted frame in the buffer, the merge
returns exactly its `N` obstacles (one per tracking key, with the positions
computed from that latest batch), and in general the merge answers every key
lookup with the last (most recently inserted) occurrence of that key across the
buffered frames. -/
theorem c1_merge_depth_one (s : ManagerState) (batch : List RawDetection)
    (hbuf : s.detectionFrames.length ≤ 1)
    (hdist : (batch.map (fun a => a.id)).Pairwise (fun a b => a ≠ b)) :
    (setDetectedFrame s batch).detectionFrames = [convertBatch batch]
    ∧ mergedDetections (setDetectedFrame s batch).detectionFrames = convertBatch batch
    ∧ (convertBatch batch).length = batch.length
    ∧ (∀ (frames : List (List DetObs)) (k : Nat),
        (mergedDetections frames).find? (fun o => o.aiId == k)
          = ((frames.flatten).filter (fun o => o.aiId == k)).getLast?) := by
  have hframes : (setDetectedFrame s batch).detectionFrames = [convertBatch batch] := by
    unfold setDetectedFrame
    exact ringPush_depth_one s.detectionFrames hbuf (convertBatch batch)
  refine ⟨hframes, ?_, by simp [convertBatch], ?_⟩
  · rw [hframes]
    unfold mergedDetections
    simp only [List.foldl_cons, List.foldl_nil]
    rw [foldl_mapSet_distinct]
    · simp
    · rw [keysOf_convertBatch]
      exact hdist
    · intro k _
      simp [keysOf]
  · intro frames k
    unfold mergedDetections
    rw [foldl_mapSet_join, find?_foldl_mapSet]
    cases ((frames.flatten).filter (fun o => o.aiId == k)).getLast? <;> rfl

/-- C1 witness: a concrete two-detection batch with distinct ids 1 and 2 merged
through an initially empty depth-1 buffer. -/
theorem c1_witness :
    (setDetectedFrame ⟨[], 1, [], 0⟩
        [⟨1, "car", 300, 100, 50, 50, 200⟩, ⟨2, "person", 0, 0, 40, 40, 100⟩]).detectionFrames
      = [convertBatch [⟨1, "car", 300, 100, 50, 50, 200⟩, ⟨2, "person", 0, 0, 40, 40, 100⟩]]
    ∧ mergedDetections (setDetectedFrame ⟨[], 1, [], 0⟩
        [⟨1, "car", 300, 100, 50, 50, 200⟩, ⟨2, "person", 0, 0, 40, 40, 100⟩]).detectionFrames
      = convertBatch [⟨1, "car", 300, 100, 50, 50, 200⟩, ⟨2, "person", 0, 0, 40, 40, 100⟩]
    ∧ (convertBatch [⟨1, "car", 300, 100, 50, 50, 200⟩,
        ⟨2, "person", 0, 0, 40, 40, 100⟩]).length = 2 := by
  have h := c1_merge_depth_one ⟨[], 1, [], 0⟩
    [⟨1, "car", 300, 100, 50, 50, 200⟩, ⟨2, "person", 0, 0, 40, 40, 100⟩]
    (by simp) (by simp)
  exact ⟨h.1, h.2.1, h.2.2.1⟩

/-- The drift vector of `ObstacleManager.update`:
`steerRad = (-steering) * PI / 180`, `v = (speed * sin steerRad, speed * cos steerRad)`. -/
noncomputable def driftVelocity (worldSpeedPx worldSteeringDeg : ℝ) : ℝ × ℝ :=
  let steerRad := (-worldSteeringDeg) * Real.pi / 180
  (worldSpeedPx * Real.sin steerRad, worldSpeedPx * Real.cos steerRad)

/-- The per-obstacle displacement of `update`: `o.x += vx * dt; o.y += vy * dt`. -/
noncomputable def applyDrift (v : ℝ × ℝ) (deltaTime : ℝ) (o : WorldObs) : WorldObs :=
  { o with x := o.x + v.1 * deltaTime, y := o.y + v.2 * deltaTime }

/-- The on-screen test of `update` (canvas bounds plus a 100 px margin on all sides). -/
noncomputable def onScreenB (o : WorldObs) : Bool :=
  decide (o.y < CONFIG.canvasHeight + 100 ∧ o.y > -100
    ∧ o.x > -100 ∧ o.x < CONFIG.canvasWidth + 100)

/-- `ObstacleManager.update`: drift all procedural/user obstacles, remove the
off-screen ones (each removal incrementing `obstaclesPassed`), then keep only the
last `CONFIG.obstacles.maxVisible` survivors (`slice(-maxVisible)`). -/
noncomputable def updateState (s : ManagerState)
    (deltaTime worldSpeedPx worldSteeringDeg : ℝ) : ManagerState :=
  let moved := s.obstacles.map (applyDrift (driftVelocity worldSpeedPx worldSteeringDeg) deltaTime)
  let kept := moved.filter onScreenB
  let limited :=
    if CONFIG.maxVisible < kept.length then kept.drop (kept.length - CONFIG.maxVisible)
    else kept
  { s with
    obstacles := limited
    obstaclesPassed := s.obstaclesPassed + (moved.filter (fun o => !onScreenB o)).length }

/-- `ObstacleManager.addUserObstacle`: `x: data.x || random road x`,
`y: data.y || -50` (JavaScript `||`: the value 0 falls back to the default).
`r` is the sampled `Math.random()` value. -/
noncomputable def addUserObstacle (s : ManagerState) (dataX dataY r : ℝ) : ManagerState :=
  { s with
    obstacles := s.obstacles ++
      [{ id := "user_" ++ toString s.nextId
         kind := WKind.user
         cls := "barrel"
         x := if dataX = 0 then roadLeft + r * CONFIG.roadWidth else dataX
         y := if dataY = 0 then -50 else dataY
         width := 35
         height := 35
         color := "#FFA07A" }]
    nextId := s.nextId + 1 }

/-- C5: one `update` call increments the passed counter by exactly the number of
procedural/user obstacles whose post-drift position is outside the off-screen
margin (one per removed obstacle); the surviving list is a (suffix) sublist of
the on-screen post-drift obstacles, equal to it whenever the visible ceiling is
not exceeded; every survivor is on screen; and the visible-ceiling eviction does
not affect the passed counter (the counter value is determined before eviction). -/
theorem c5_update_cull_score (s : ManagerState) (deltaTime speed steering : ℝ) :
    (updateState s deltaTime speed steering).obstaclesPassed
        = s.obstaclesPassed
          + ((s.obstacles.map (applyDrift (driftVelocity speed steering) deltaTime)).filter
              (fun o => !onScreenB o)).length
    ∧ (updateState s deltaTime speed steering).obstacles.Sublist
        ((s.obstacles.map (applyDrift (driftVelocity speed steering) deltaTime)).filter
          onScreenB)
    ∧ (((s.obstacles.map (applyDrift (driftVelocity speed steering) deltaTime)).filter
          onScreenB).length ≤ CONFIG.maxVisible →
        (updateState s deltaTime speed steering).obstacles
          = (s.obstacles.map (applyDrift (driftVelocity speed steering) deltaTime)).filter
              onScreenB)
    ∧ (∀ o ∈ (updateState s deltaTime speed steering).obstacles, onScreenB o = true) := by
  have hsub : (updateState s deltaTime speed steering).obstacles.Sublist
      ((s.obstacles.map (applyDrift (driftVelocity speed steering) deltaTime)).filter
        onScreenB) := by
    simp only [updateState]
    split
    · exact List.drop_sublist _ _
    · exact List.Sublist.refl _
  refine ⟨rfl, hsub, ?_, ?_⟩
  · intro hlen
    simp only [updateState]
    rw [if_neg (by omega)]
  · intro o ho
    exact (List.mem_filter.mp (hsub.subset ho)).2

/-- C5 witness: updating a state whose single obstacle stays on screen keeps it
and leaves the survivor list equal to the on-screen post-drift list. -/
theorem c5_witness :
    (updateState ⟨[⟨"random_1", WKind.random, "cone", 400, 300, 30, 30, "#FF6B6B"⟩],
        2, [], 0⟩ 0 0 0).obstacles
      = ([⟨"random_1", WKind.random, "cone", 400, 300, 30, 30, "#FF6B6B"⟩].map
          (applyDrift (driftVelocity 0 0) 0)).filter onScreenB := by
  apply (c5_update_cull_score
    ⟨[⟨"random_1", WKind.random, "cone", 400, 300, 30, 30, "#FF6B6B"⟩], 2, [], 0⟩
    0 0 0).2.2.1
  have hlen : (([⟨"random_1", WKind.random, "cone", 400, 300, 30, 30, "#FF6B6B"⟩].map
      (applyDrift (driftVelocity 0 0) 0)).filter onScreenB).length
      ≤ ([⟨"random_1", WKind.random, "cone", 400, 300, 30, 30, "#FF6B6B"⟩].map
      (applyDrift (driftVelocity 0 0) 0)).length := List.length_filter_le _ _
  simp only [List.length_map, List.length_cons, List.length_nil] at hlen
  calc _ ≤ 1 := hlen
    _ ≤ CONFIG.maxVisible := by norm_num [CONFIG]

/-- C7 (amended): `update` translates every procedural/user obstacle by exactly
the drift vector `(speed * sin (-steering rad), speed * cos (-steering rad))`
times `deltaTime`; it never touches the buffered detection frames; and for
positive `deltaTime`, positive speed, and positive steering strictly below 180
degrees, the drift strictly decreases every such obstacle's x. -/
theorem c7_drift_translation (s : ManagerState) (deltaTime speed steering : ℝ) :
    (updateState s deltaTime speed steering).detectionFrames = s.detectionFrames
    ∧ s.obstacles.map (applyDrift (driftVelocity speed steering) deltaTime)
        = s.obstacles.map (fun o =>
            { o with
              x := o.x + speed * Real.sin ((-steering) * Real.pi / 180) * deltaTime
              y := o.y + speed * Real.cos ((-steering) * Real.pi / 180) * deltaTime })
    ∧ (0 < deltaTime → 0 < speed → 0 < steering → steering < 180 →
        ∀ o ∈ s.obstacles,
          (applyDrift (driftVelocity speed steering) deltaTime o).x < o.x) := by
  refine ⟨rfl, rfl, ?_⟩
  intro hdt hsp hst hlt o _
  have hpi := Real.pi_pos
  have hrad : (0 : ℝ) < steering * Real.pi / 180 := by positivity
  have hradlt : steering * Real.pi / 180 < Real.pi := by nlinarith
  have hsin : 0 < Real.sin (steering * Real.pi / 180) :=
    Real.sin_pos_of_pos_of_lt_pi hrad hradlt
  have hneg : Real.sin ((-steering) * Real.pi / 180) < 0 := by
    have h1 : (-steering) * Real.pi / 180 = -(steering * Real.pi / 180) := by ring
    rw [h1, Real.sin_neg]
    linarith
  simp only [applyDrift, driftVelocity]
  have hvx : speed * Real.sin ((-steering) * Real.pi / 180) * deltaTime < 0 :=
    mul_neg_of_neg_of_pos (mul_neg_of_pos_of_neg hsp hneg) hdt
  linarith

/-- C7 witness: with deltaTime 1, speed 1, and steering 90 degrees the drift
strictly decreases a concrete obstacle's x. -/
theorem c7_witness :
    (applyDrift (driftVelocity 1 90) 1
        ⟨"random_1", WKind.random, "cone", 400, 300, 30, 30, "#FF6B6B"⟩).x < 400 :=
  (c7_drift_translation
      ⟨[⟨"random_1", WKind.random, "cone", 400, 300, 30, 30, "#FF6B6B"⟩], 2, [], 0⟩
      1 1 90).2.2 (by norm_num) (by norm_num) (by norm_num) (by norm_num)
    ⟨"random_1", WKind.random, "cone", 400, 300, 30, 30, "#FF6B6B"⟩ (by simp)

/-- C7 counterexample to the claim as stated: at the positive steering angle of
360 degrees (with deltaTime 1 and speed 1) the drift leaves an obstacle's x
unchanged at 100, so positive steering does not strictly decrease x for every
steering angle. -/
theorem c7_counterexample :
    (applyDrift (driftVelocity 1 360) 1
        ⟨"random_1", WKind.random, "cone", 100, 0, 30, 30, "#FF6B6B"⟩).x = 100 := by
  have hsin : Real.sin ((-(360 : ℝ)) * Real.pi / 180) = 0 := by
    have h1 : (-(360 : ℝ)) * Real.pi / 180 = -(2 * Real.pi) := by ring
    rw [h1, Real.sin_neg, Real.sin_two_pi, neg_zero]
  simp only [applyDrift, driftVelocity]
  rw [hsin]
  norm_num

/-- C10: a user obstacle request whose coordinates are both 0 is treated exactly
like a missing-coordinate request: the obstacle is appended with a random
road-band x (in `[roadLeft, roadLeft + roadWidth) = [315, 965)`, in particular
nonzero) and the default spawn y of -50, never at position (0, 0); a request
with both coordinates nonzero is placed at exactly the supplied position. -/
theorem c10_user_obstacle_zero_default (s : ManagerState) (r : ℝ)
    (hr0 : 0 ≤ r) (hr1 : r < 1) :
    ((addUserObstacle s 0 0 r).obstacles
        = s.obstacles ++
          [{ id := "user_" ++ toString s.nextId
             kind := WKind.user
             cls := "barrel"
             x := roadLeft + r * CONFIG.roadWidth
             y := -50
             width := 35
             height := 35
             color := "#FFA07A" }]
      ∧ 315 ≤ roadLeft + r * CONFIG.roadWidth
      ∧ roadLeft + r * CONFIG.roadWidth < 965
      ∧ roadLeft + r * CONFIG.roadWidth ≠ 0
      ∧ (-50 : ℝ) ≠ 0)
    ∧ (∀ dataX dataY : ℝ, dataX ≠ 0 → dataY ≠ 0 →
        (addUserObstacle s dataX dataY r).obstacles
          = s.obstacles ++
            [{ id := "user_" ++ toString s.nextId
               kind := WKind.user
               cls := "barrel"
               x := dataX
               y := dataY
               width := 35
               height := 35
               color := "#FFA07A" }]) := by
  have hroad : roadLeft = (315 : ℝ) := by
    norm_num [roadLeft, CONFIG]
  have hw : CONFIG.roadWidth = (650 : ℝ) := rfl
  refine ⟨⟨?_, ?_, ?_, ?_, by norm_num⟩, ?_⟩
  · simp [addUserObstacle]
  · rw [hroad, hw]; nlinarith
  · rw [hroad, hw]; nlinarith
  · rw [hroad, hw]; nlinarith
  · intro dataX dataY hx hy
    simp [addUserObstacle, hx, hy]

/-- C10 witness: the zero-coordinate request at random sample 1/2 and a concrete
nonzero request at (500, 200). -/
theorem c10_witness :
    ((addUserObstacle ⟨[], 1, [], 0⟩ 0 0 (1 / 2)).obstacles
        = [] ++
          [{ id := "user_" ++ toString 1
             kind := WKind.user
             cls := "barrel"
             x := roadLeft + (1 / 2) * CONFIG.roadWidth
             y := -50
             width := 35
             height := 35
             color := "#FFA07A" }]
      ∧ 315 ≤ roadLeft + (1 / 2) * CONFIG.roadWidth
      ∧ roadLeft + (1 / 2) * CONFIG.roadWidth < 965
      ∧ roadLeft + (1 / 2) * CONFIG.roadWidth ≠ 0
      ∧ (-50 : ℝ) ≠ 0)
    ∧ (addUserObstacle ⟨[], 1, [], 0⟩ 500 200 (1 / 2)).obstacles
        = [] ++
          [{ id := "user_" ++ toString 1
             kind := WKind.user
             cls := "barrel"
             x := 500
             y := 200
             width := 35
             height := 35
             color := "#FFA07A" }] :=
  ⟨(c10_user_obstacle_zero_default ⟨[], 1, [], 0⟩ (1 / 2) (by norm_num) (by norm_num)).1,
   (c10_user_obstacle_zero_default ⟨[], 1, [], 0⟩ (1 / 2) (by norm_num) (by norm_num)).2
     500 200 (by norm_num) (by norm_num)⟩

theorem findIn_mem (l : List ClassEntry) (c : String) (e : ClassEntry)
    (h : findIn l c = some e) : e ∈ l := by
  induction l with
  | nil => simp [findIn] at h
  | cons a tl ih =>
    unfold findIn at h
    by_cases ha : a.name = c
    · rw [if_pos ha] at h
      exact (Option.some_inj.mp h) ▸ List.mem_cons_self a tl
    · rw [if_neg ha] at h
      exact List.mem_cons_of_mem a (ih h)

theorem cocoClassList_heightFactor_bounds (e : ClassEntry) (he : e ∈ cocoClassList) :
    1 ≤ e.heightFactor ∧ e.heightFactor ≤ 5 / 2 := by
  fin_cases he <;> norm_num

/-- C6: every ingested detection gets width `sizeConstant * bboxW / max(depth, 1)`
clamped below by the floor 10, and height `width * classHeightRatio` (ratio 1.5
for class names not in the table); in particular the batch entry
`{id: 1, class: "car", bbox: [300, 100, 50, 50], distance: 200}` with
`sizeConstant = 30` yields width `max 10 7.5 = 10` and height `10 * 1.8 = 18`. -/
theorem c6_detected_size (a : RawDetection) :
    (convertDetection a).width
        = max 10 (CONFIG.sizeConstant * a.bboxW / max a.distance 1)
    ∧ (convertDetection a).height
        = (convertDetection a).width
          * ((findIn cocoClassList a.cls).getD (fallbackClassInfo a.cls)).heightFactor
    ∧ (findIn cocoClassList a.cls = none →
        (convertDetection a).height = (convertDetection a).width * 1.5)
    ∧ (convertDetection ⟨1, "car", 300, 100, 50, 50, 200⟩).width = 10
    ∧ (convertDetection ⟨1, "car", 300, 100, 50, 50, 200⟩).height = 18 := by
  have hfac : ((findIn cocoClassList a.cls).getD (fallbackClassInfo a.cls)).heightFactor ≠ 0 := by
    cases hfind : findIn cocoClassList a.cls with
    | none =>
      simp only [hfind, Option.getD_none, fallbackClassInfo]
      norm_num
    | some ci =>
      have := (cocoClassList_heightFactor_bounds ci (findIn_mem _ _ _ hfind)).1
      simp only [hfind, Option.getD_some]
      intro h0
      rw [h0] at this
      norm_num at this
  have hcar : findIn cocoClassList "car"
      = some { name := "car", color := "#45B7D1", size := 50, heightFactor := 1.8 } := by
    simp [findIn, cocoClassList]
  refine ⟨rfl, ?_, ?_, ?_, ?_⟩
  · simp only [convertDetection]
    rw [if_neg hfac]
  · intro hnone
    simp only [convertDetection, hnone, Option.getD_none]
    rw [if_neg (by norm_num [fallbackClassInfo])]
    norm_num [fallbackClassInfo]
  · simp only [convertDetection, hcar, Option.getD_some]
    rw [max_eq_left (by norm_num : (200 : ℝ) ≥ 1)]
    rw [max_eq_left (by norm_num [CONFIG] : (10 : ℝ) ≥ CONFIG.sizeConstant * 50 / 200)]
  · simp only [convertDetection, hcar, Option.getD_some]
    rw [if_neg (by norm_num)]
    rw [max_eq_left (by norm_num : (200 : ℝ) ≥ 1)]
    rw [max_eq_left (by norm_num [CONFIG] : (10 : ℝ) ≥ CONFIG.sizeConstant * 50 / 200)]
    norm_num

/-- C6 witness: a class name absent from the table gets the default ratio 1.5. -/
theorem c6_witness :
    (convertDetection ⟨3, "zebra", 0, 0, 40, 40, 100⟩).height
      = (convertDetection ⟨3, "zebra", 0, 0, 40, 40, 100⟩).width * 1.5 :=
  (c6_detected_size ⟨3, "zebra", 0, 0, 40, 40, 100⟩).2.2.1 (by simp [findIn, cocoClassList])

/-- The containment test of `_positionDetected`: the reference point lies inside
the (closed) axis-aligned rectangle of the obstacle. -/
def containsRef (o : DetObs) : Prop :=
  CONFIG.referenceX ≥ o.x - o.width / 2 ∧ CONFIG.referenceX ≤ o.x + o.width / 2
  ∧ CONFIG.referenceY ≥ o.y - o.height / 2 ∧ CONFIG.referenceY ≤ o.y + o.height / 2

noncomputable instance (o : DetObs) : Decidable (containsRef o) := by
  unfold containsRef
  infer_instance

/-- The normalised x component of the centre-minus-reference vector `(D, E)` used
by the push of `_positionDetected`, with the degenerate fallback `(0, -1)` when
the length is below the 0.001 epsilon. -/
noncomputable def normDirX (D E : ℝ) : ℝ :=
  if Real.sqrt (D * D + E * E) < 1 / 1000 then 0
  else D / Real.sqrt (D * D + E * E)

/-- The normalised y component of the push direction (see `normDirX`). -/
noncomputable def normDirY (D E : ℝ) : ℝ :=
  if Real.sqrt (D * D + E * E) < 1 / 1000 then -1
  else E / Real.sqrt (D * D + E * E)

/-- The push distance of `_positionDetected`: each half-extent divided by the
absolute direction component (a zero component guarded by 1e-9), the smaller of
the two, plus the fixed margin 2. -/
noncomputable def pushAmount (hw hh D E : ℝ) : ℝ :=
  min (hw / (if |normDirX D E| = 0 then 1 / 1000000000 else |normDirX D E|))
      (hh / (if |normDirY D E| = 0 then 1 / 1000000000 else |normDirY D E|)) + 2

/-- The branch of `_positionDetected` taken when the reference point is inside the
obstacle's rectangle: move the centre to `ref + dir * pushAmount`. -/
noncomputable def pushObs (o : DetObs) : DetObs :=
  let D := o.x - CONFIG.referenceX
  let E := o.y - CONFIG.referenceY
  { o with
    x := CONFIG.referenceX + normDirX D E * pushAmount (o.width / 2) (o.height / 2) D E
    y := CONFIG.referenceY + normDirY D E * pushAmount (o.width / 2) (o.height / 2) D E }

/-- The per-obstacle action of `_positionDetected`: push the obstacle clear of the
reference point when its rectangle contains it, otherwise leave it unchanged. -/
noncomputable def resolveObs (o : DetObs) : DetObs :=
  if containsRef o then pushObs o else o

/-- The list returned by `_positionDetected` (the merged detections, each pushed
clear of the reference point). -/
noncomputable def resolveList (l : List DetObs) : List DetObs := l.map resolveObs

/-- Write-back effect of `_positionDetected` on one buffered frame: the merge map
holds a reference to the LAST occurrence of each tracking key across the buffer,
so exactly those occurrences receive the pushed coordinates; `later` is the list
of keys occurring in younger frames. -/
noncomputable def frameResolve : List DetObs → List Nat → List DetObs
  | [], _ => []
  | o :: tl, later =>
      (if o.aiId ∈ keysOf tl ++ later then o else resolveObs o) :: frameResolve tl later

/-- Write-back effect of `_positionDetected` on the whole detection ring buffer. -/
noncomputable def framesResolve : List (List DetObs) → List (List DetObs)
  | [] => []
  | f :: rest => frameResolve f (keysOf rest.flatten) :: framesResolve rest

/-- `ObstacleManager._positionDetected`: returns the pushed merged detections,
and — because the merge map aliases the objects stored in the ring buffer — also
writes the pushed coordinates back into the buffered frames. -/
noncomputable def positionDetected (s : ManagerState) : ManagerState × List DetObs :=
  ({ s with detectionFrames := framesResolve s.detectionFrames },
   resolveList (mergedDetections s.detectionFrames))

theorem heightFactor_getD_bounds (c : String) :
    1 ≤ ((findIn cocoClassList c).getD (fallbackClassInfo c)).heightFactor
    ∧ ((findIn cocoClassList c).getD (fallbackClassInfo c)).heightFactor ≤ 5 / 2 := by
  cases hfind : findIn cocoClassList c with
  | none =>
    simp only [Option.getD_none, fallbackClassInfo]
    norm_num
  | some ci =>
    simpa using cocoClassList_heightFactor_bounds ci (findIn_mem _ _ _ hfind)

theorem convertDetection_width_height (a : RawDetection) :
    (convertDetection a).width
        = max 10 (CONFIG.sizeConstant * a.bboxW / max a.distance 1)
    ∧ (convertDetection a).height
        = (convertDetection a).width
          * ((findIn cocoClassList a.cls).getD (fallbackClassInfo a.cls)).heightFactor := by
  have hfac : ((findIn cocoClassList a.cls).getD (fallbackClassInfo a.cls)).heightFactor ≠ 0 := by
    have := (heightFactor_getD_bounds a.cls).1
    intro h0
    rw [h0] at this
    norm_num at this
  refine ⟨rfl, ?_⟩
  simp only [convertDetection]
  rw [if_neg hfac]

theorem convertDetection_shape (a : RawDetection) :
    10 ≤ (convertDetection a).width
    ∧ (convertDetection a).width ≤ (convertDetection a).height
    ∧ (convertDetection a).height ≤ 5 / 2 * (convertDetection a).width := by
  obtain ⟨hw, hh⟩ := convertDetection_width_height a
  obtain ⟨hb1, hb2⟩ := heightFactor_getD_bounds a.cls
  have h10 : (10 : ℝ) ≤ (convertDetection a).width := by
    rw [hw]
    exact le_max_left _ _
  refine ⟨h10, ?_, ?_⟩
  · rw [hh]
    nlinarith
  · rw [hh]
    nlinarith

theorem push_clears (hw hh D E : ℝ) (hwpos : 0 < hw) (hwhh : hw ≤ hh)
    (hhhw : hh ≤ 5 / 2 * hw) :
    hw < |normDirX D E * pushAmount hw hh D E|
    ∨ hh < |normDirY D E * pushAmount hw hh D E| := by
  have hhpos : 0 < hh := lt_of_lt_of_le hwpos hwhh
  by_cases hlen : Real.sqrt (D * D + E * E) < 1 / 1000
  · -- degenerate fallback (0, -1): pushed straight up by hh + 2
    have hdx : normDirX D E = 0 := by
      unfold normDirX
      rw [if_pos hlen]
    have hdy : normDirY D E = -1 := by
      unfold normDirY
      rw [if_pos hlen]
    have hpush : pushAmount hw hh D E = hh + 2 := by
      unfold pushAmount
      rw [hdx, hdy, abs_zero, if_pos rfl, abs_neg, abs_one, if_neg one_ne_zero, div_one]
      have hconv : hw / (1 / 1000000000) = hw * 1000000000 := by
        rw [div_div_eq_mul_div, div_one]
      rw [hconv, min_eq_right (by nlinarith)]
    right
    rw [hdy, hpush]
    have : (-1 : ℝ) * (hh + 2) = -(hh + 2) := by ring
    rw [this, abs_neg, abs_of_nonneg (by linarith)]
    linarith
  · push_neg at hlen
    have hLpos : 0 < Real.sqrt (D * D + E * E) := lt_of_lt_of_le (by norm_num) hlen
    have hdx : normDirX D E = D / Real.sqrt (D * D + E * E) := by
      unfold normDirX
      rw [if_neg (not_lt.mpr hlen)]
    have hdy : normDirY D E = E / Real.sqrt (D * D + E * E) := by
      unfold normDirY
      rw [if_neg (not_lt.mpr hlen)]
    by_cases hD : D = 0
    · -- direction is vertical: pushed by hh + 2 along y
      have hE0 : E ≠ 0 := by
        intro hE0
        rw [hD, hE0] at hLpos
        have hz : (0 : ℝ) * 0 + 0 * 0 = 0 := by ring
        rw [hz, Real.sqrt_zero] at hLpos
        exact lt_irrefl 0 hLpos
      have hLabs : Real.sqrt (D * D + E * E) = |E| := by
        rw [hD]
        have hz : (0 : ℝ) * 0 + E * E = E * E := by ring
        rw [hz, Real.sqrt_mul_self_eq_abs]
      have hdx0 : normDirX D E = 0 := by
        rw [hdx, hD, zero_div]
      have hdyabs : |normDirY D E| = 1 := by
        rw [hdy, hLabs, abs_div, abs_abs]
        exact div_self (abs_ne_zero.mpr hE0)
      have hpush : pushAmount hw hh D E = hh + 2 := by
        unfold pushAmount
        rw [hdx0, abs_zero, if_pos rfl, hdyabs, if_neg one_ne_zero, div_one]
        have hconv : hw / (1 / 1000000000) = hw * 1000000000 := by
          rw [div_div_eq_mul_div, div_one]
        rw [hconv, min_eq_right (by nlinarith)]
      right
      rw [hpush, abs_mul, hdyabs, one_mul, abs_of_nonneg (by linarith)]
      linarith
    · by_cases hEz : E = 0
      · -- direction is horizontal: pushed by hw + 2 along x
        have hLabs : Real.sqrt (D * D + E * E) = |D| := by
          rw [hEz]
          have hz : D * D + (0 : ℝ) * 0 = D * D := by ring
          rw [hz, Real.sqrt_mul_self_eq_abs]
        have hdy0 : normDirY D E = 0 := by
          rw [hdy, hEz, zero_div]
        have hdxabs : |normDirX D E| = 1 := by
          rw [hdx, hLabs, abs_div, abs_abs]
          exact div_self (abs_ne_zero.mpr hD)
        have hpush : pushAmount hw hh D E = hw + 2 := by
          unfold pushAmount
          rw [hdy0, abs_zero, if_pos rfl, hdxabs, if_neg one_ne_zero, div_one]
          have hconv : hh / (1 / 1000000000) = hh * 1000000000 := by
            rw [div_div_eq_mul_div, div_one]
          rw [hconv, min_eq_left (by nlinarith)]
        left
        rw [hpush, abs_mul, hdxabs, one_mul, abs_of_nonneg (by linarith)]
        linarith
      · -- generic direction: the chosen axis clears by 2 * |component| / length
        have habsD : 0 < |D| := abs_pos.mpr hD
        have habsE : 0 < |E| := abs_pos.mpr hEz
        have hdxabs : |normDirX D E| = |D| / Real.sqrt (D * D + E * E) := by
          rw [hdx, abs_div, abs_of_nonneg hLpos.le]
        have hdyabs : |normDirY D E| = |E| / Real.sqrt (D * D + E * E) := by
          rw [hdy, abs_div, abs_of_nonneg hLpos.le]
        have hdxpos : 0 < |normDirX D E| := by
          rw [hdxabs]
          exact div_pos habsD hLpos
        have hdypos : 0 < |normDirY D E| := by
          rw [hdyabs]
          exact div_pos habsE hLpos
        have hifx : (if |normDirX D E| = 0 then 1 / 1000000000 else |normDirX D E|)
            = |D| / Real.sqrt (D * D + E * E) := by
          rw [if_neg hdxpos.ne', hdxabs]
        have hify : (if |normDirY D E| = 0 then 1 / 1000000000 else |normDirY D E|)
            = |E| / Real.sqrt (D * D + E * E) := by
          rw [if_neg hdypos.ne', hdyabs]
        unfold pushAmount
        rw [hifx, hify]
        rcases le_total (hw / (|D| / Real.sqrt (D * D + E * E)))
            (hh / (|E| / Real.sqrt (D * D + E * E))) with hmin | hmin
        · left
          rw [min_eq_left hmin, abs_mul, hdxabs]
          have hppos : 0 < hw / (|D| / Real.sqrt (D * D + E * E)) + 2 := by positivity
          rw [abs_of_nonneg hppos.le]
          have hexp : |D| / Real.sqrt (D * D + E * E)
              * (hw / (|D| / Real.sqrt (D * D + E * E)) + 2)
              = hw + 2 * (|D| / Real.sqrt (D * D + E * E)) := by
            field_simp
            ring
          rw [hexp]
          have : 0 < |D| / Real.sqrt (D * D + E * E) := div_pos habsD hLpos
          linarith
        · right
          rw [min_eq_right hmin, abs_mul, hdyabs]
          have hppos : 0 < hh / (|E| / Real.sqrt (D * D + E * E)) + 2 := by positivity
          rw [abs_of_nonneg hppos.le]
          have hexp : |E| / Real.sqrt (D * D + E * E)
              * (hh / (|E| / Real.sqrt (D * D + E * E)) + 2)
              = hh + 2 * (|E| / Real.sqrt (D * D + E * E)) := by
            field_simp
            ring
          rw [hexp]
          have : 0 < |E| / Real.sqrt (D * D + E * E) := div_pos habsE hLpos
          linarith

/-- C2: a detection whose rectangle does not contain the reference point passes
through `resolve` unchanged; a detection whose rectangle contains it (every
detection produced by the ingestion pipeline satisfies the stated shape bounds:
width at least the 10 px floor and height between 1 and 2.5 widths) is pushed
along the reference-to-centre direction (straight up in the degenerate case) so
that afterwards the reference point lies strictly outside the returned rectangle,
whose size is unchanged. -/
theorem c2_resolve_reference_clear (o : DetObs) :
    (¬ containsRef o → resolveObs o = o)
    ∧ (containsRef o → 10 ≤ o.width → o.width ≤ o.height → o.height ≤ 5 / 2 * o.width →
        ¬ containsRef (resolveObs o)
        ∧ (resolveObs o).width = o.width ∧ (resolveObs o).height = o.height)
    ∧ (∀ a : RawDetection,
        10 ≤ (convertDetection a).width
        ∧ (convertDetection a).width ≤ (convertDetection a).height
        ∧ (convertDetection a).height ≤ 5 / 2 * (convertDetection a).width) := by
  refine ⟨?_, ?_, convertDetection_shape⟩
  · intro hn
    unfold resolveObs
    rw [if_neg hn]
  · intro hcont h10 hwh hhw
    have hres : resolveObs o = pushObs o := by
      unfold resolveObs
      rw [if_pos hcont]
    have hkey := push_clears (o.width / 2) (o.height / 2)
      (o.x - CONFIG.referenceX) (o.y - CONFIG.referenceY)
      (by linarith) (by linarith) (by linarith)
    refine ⟨?_, by rw [hres]; rfl, by rw [hres]; rfl⟩
    rw [hres]
    intro hc
    unfold containsRef at hc
    simp only [pushObs] at hc
    obtain ⟨h1, h2, h3, h4⟩ := hc
    rcases hkey with hk | hk
    · have habs : |normDirX (o.x - CONFIG.referenceX) (o.y - CONFIG.referenceY)
          * pushAmount (o.width / 2) (o.height / 2)
              (o.x - CONFIG.referenceX) (o.y - CONFIG.referenceY)| ≤ o.width / 2 :=
        abs_le.mpr ⟨by linarith, by linarith⟩
      linarith
    · have habs : |normDirY (o.x - CONFIG.referenceX) (o.y - CONFIG.referenceY)
          * pushAmount (o.width / 2) (o.height / 2)
              (o.x - CONFIG.referenceX) (o.y - CONFIG.referenceY)| ≤ o.height / 2 :=
        abs_le.mpr ⟨by linarith, by linarith⟩
      linarith

/-- C2 witness: a 20 by 30 car detection centred exactly on the reference point
is pushed so that the reference point is strictly outside it, its size unchanged. -/
theorem c2_witness :
    ¬ containsRef (resolveObs ⟨"ai_1", "car", 640, 650, 20, 30, "#45B7D1", 200, 1⟩)
    ∧ (resolveObs ⟨"ai_1", "car", 640, 650, 20, 30, "#45B7D1", 200, 1⟩).width
        = (⟨"ai_1", "car", 640, 650, 20, 30, "#45B7D1", 200, 1⟩ : DetObs).width
    ∧ (resolveObs ⟨"ai_1", "car", 640, 650, 20, 30, "#45B7D1", 200, 1⟩).height
        = (⟨"ai_1", "car", 640, 650, 20, 30, "#45B7D1", 200, 1⟩ : DetObs).height :=
  (c2_resolve_reference_clear ⟨"ai_1", "car", 640, 650, 20, 30, "#45B7D1", 200, 1⟩).2.1
    (by refine ⟨?_, ?_, ?_, ?_⟩ <;> norm_num [CONFIG])
    (by norm_num) (by norm_num) (by norm_num)

theorem frameResolve_id (l : List DetObs) (later : List Nat)
    (h : ∀ o ∈ l, ¬ containsRef o) :
    frameResolve l later = l := by
  induction l with
  | nil => rfl
  | cons o tl ih =>
    unfold frameResolve
    have hro : resolveObs o = o := by
      unfold resolveObs
      rw [if_neg (h o (List.mem_cons_self o tl))]
    rw [ih (fun o' ho' => h o' (List.mem_cons_of_mem o ho'))]
    by_cases hmem : o.aiId ∈ keysOf tl ++ later
    · rw [if_pos hmem]
    · rw [if_neg hmem, hro]

theorem framesResolve_id (frames : List (List DetObs))
    (h : ∀ f ∈ frames, ∀ o ∈ f, ¬ containsRef o) :
    framesResolve frames = frames := by
  induction frames with
  | nil => rfl
  | cons f rest ih =>
    unfold framesResolve
    rw [frameResolve_id f _ (h f (List.mem_cons_self f rest)),
      ih (fun f' hf' => h f' (List.mem_cons_of_mem f hf'))]

/-- C3 (amended): `_positionDetected` leaves the buffered detection frames (and
the rest of the manager state) unchanged whenever no buffered detection's
rectangle contains the reference point; in general it writes the pushed
coordinates back into the buffered frames, because the merge map aliases the
frame objects. -/
theorem c3_resolve_purity_amended (s : ManagerState)
    (h : ∀ f ∈ s.detectionFrames, ∀ o ∈ f, ¬ containsRef o) :
    (positionDetected s).1.detectionFrames = s.detectionFrames
    ∧ (positionDetected s).1.obstacles = s.obstacles
    ∧ (positionDetected s).1.obstaclesPassed = s.obstaclesPassed := by
  exact ⟨framesResolve_id s.detectionFrames h, rfl, rfl⟩

/-- C3 witness: a buffered detection far away from the reference point is left
untouched in the buffer by the resolve step. -/
theorem c3_witness :
    (positionDetected ⟨[], 1, [[⟨"ai_2", "cone", 100, 100, 10, 10, "#FFFFFF", 50, 2⟩]],
        0⟩).1.detectionFrames
      = [[⟨"ai_2", "cone", 100, 100, 10, 10, "#FFFFFF", 50, 2⟩]] :=
  (c3_resolve_purity_amended
    ⟨[], 1, [[⟨"ai_2", "cone", 100, 100, 10, 10, "#FFFFFF", 50, 2⟩]], 0⟩
    (by
      intro f hf o ho
      simp only [List.mem_singleton] at hf
      subst hf
      simp only [List.mem_singleton] at ho
      subst ho
      rintro ⟨-, h2, -, -⟩
      norm_num [CONFIG] at h2)).1

/-- C3 counterexample to the claim as stated: resolving a buffer whose single
detection (a 20 by 20 rectangle centred exactly on the reference point) contains
the reference point mutates the buffered frame: the stored obstacle's y moves
from 650 to 638, so `resolve` is not pure with respect to the detection buffer. -/
theorem c3_counterexample :
    (positionDetected ⟨[], 1,
        [[⟨"ai_1", "car", 640, 650, 20, 20, "#45B7D1", 200, 1⟩]], 0⟩).1.detectionFrames
      ≠ [[⟨"ai_1", "car", 640, 650, 20, 20, "#45B7D1", 200, 1⟩]] := by
  have hcont : containsRef ⟨"ai_1", "car", 640, 650, 20, 20, "#45B7D1", 200, 1⟩ := by
    refine ⟨?_, ?_, ?_, ?_⟩ <;> norm_num [CONFIG]
  have hframes : (positionDetected ⟨[], 1,
      [[⟨"ai_1", "car", 640, 650, 20, 20, "#45B7D1", 200, 1⟩]], 0⟩).1.detectionFrames
      = [[pushObs ⟨"ai_1", "car", 640, 650, 20, 20, "#45B7D1", 200, 1⟩]] := by
    simp only [positionDetected]
    simp [framesResolve, frameResolve, keysOf, resolveObs, hcont]
  rw [hframes]
  intro heq
  have hpush : pushObs ⟨"ai_1", "car", 640, 650, 20, 20, "#45B7D1", 200, 1⟩
      = ⟨"ai_1", "car", 640, 650, 20, 20, "#45B7D1", 200, 1⟩ := by
    simpa using heq
  have hsqrt0 : Real.sqrt ((0 : ℝ) * 0 + 0 * 0) = 0 := by
    norm_num [Real.sqrt_zero]
  have hdy : normDirY 0 0 = -1 := by
    unfold normDirY
    rw [if_pos (by rw [hsqrt0]; norm_num)]
  have hdx : normDirX 0 0 = 0 := by
    unfold normDirX
    rw [if_pos (by rw [hsqrt0]; norm_num)]
  have hpa : pushAmount 10 10 0 0 = 12 := by
    unfold pushAmount
    rw [hdx, hdy, abs_zero, if_pos rfl, abs_neg, abs_one, if_neg one_ne_zero, div_one]
    have hconv : (10 : ℝ) / (1 / 1000000000) = 10 * 1000000000 := by
      rw [div_div_eq_mul_div, div_one]
    rw [hconv, min_eq_right (by norm_num)]
    norm_num
  have hy : (pushObs ⟨"ai_1", "car", 640, 650, 20, 20, "#45B7D1", 200, 1⟩).y = 638 := by
    simp only [pushObs]
    norm_num [CONFIG]
    rw [hdy, hpa]
    norm_num
  rw [hpush] at hy
  norm_num at hy

/-- An element of the heterogeneous list returned by `getAll()`:
a procedural/user obstacle or a resolved detection. -/
inductive GameObs
  | world (o : WorldObs)
  | det (o : DetObs)

def GameObs.x : GameObs → ℝ
  | .world o => o.x
  | .det o => o.x

def GameObs.y : GameObs → ℝ
  | .world o => o.y
  | .det o => o.y

def GameObs.width : GameObs → ℝ
  | .world o => o.width
  | .det o => o.width

def GameObs.height : GameObs → ℝ
  | .world o => o.height
  | .det o => o.height

/-- `ObstacleManager.rectanglesCollide`: the strict-inequality AABB overlap test
on two top-left-corner rectangles. -/
noncomputable def rectanglesCollide (x1 y1 w1 h1 x2 y2 w2 h2 : ℝ) : Bool :=
  decide (x1 < x2 + w2 ∧ x1 + w1 > x2 ∧ y1 < y2 + h2 ∧ y1 + h1 > y2)

/-- The overlap test of `checkCollision` applied to one obstacle (whose stored
position is its centre and whose extents are full width/height). -/
noncomputable def hitBy (carX carY carW carH : ℝ) (o : GameObs) : Bool :=
  rectanglesCollide carX carY carW carH
    (o.x - o.width / 2) (o.y - o.height / 2) o.width o.height

/-- The scan loop of `ObstacleManager.checkCollision`: return the first obstacle
of the list overlapping the vehicle rectangle, or none. -/
noncomputable def checkCollisionList (carX carY carW carH : ℝ) :
    List GameObs → Option GameObs
  | [] => none
  | o :: tl =>
      if hitBy carX carY carW carH o then some o
      else checkCollisionList carX carY carW carH tl

/-- `ObstacleManager.getAll`: the procedural/user obstacles followed by the
resolved merged detections. -/
noncomputable def getAllList (s : ManagerState) : List GameObs :=
  s.obstacles.map GameObs.world ++ (positionDetected s).2.map GameObs.det

/-- `ObstacleManager.checkCollision` on a manager state and a vehicle rectangle
given by its top-left corner and extents. -/
noncomputable def checkCollision (s : ManagerState) (carX carY carW carH : ℝ) :
    Option GameObs :=
  checkCollisionList carX carY carW carH (getAllList s)

theorem checkCollisionList_none (carX carY carW carH : ℝ) (l : List GameObs)
    (h : ∀ o ∈ l, hitBy carX carY carW carH o = false) :
    checkCollisionList carX carY carW carH l = none := by
  induction l with
  | nil => rfl
  | cons o tl ih =>
    unfold checkCollisionList
    rw [if_neg (by simp [h o (List.mem_cons_self o tl)]), ih]
    exact fun o' ho' => h o' (List.mem_cons_of_mem o ho')

theorem checkCollisionList_some (carX carY carW carH : ℝ) (l : List GameObs)
    (o : GameObs) (h : checkCollisionList carX carY carW carH l = some o) :
    hitBy carX carY carW carH o = true
    ∧ ∃ pre suf, l = pre ++ o :: suf
        ∧ ∀ p ∈ pre, hitBy carX carY carW carH p = false := by
  induction l with
  | nil => simp [checkCollisionList] at h
  | cons a tl ih =>
    unfold checkCollisionList at h
    by_cases ha : hitBy carX carY carW carH a
    · rw [if_pos ha] at h
      obtain rfl : a = o := Option.some_inj.mp h
      exact ⟨ha, [], tl, rfl, by simp⟩
    · rw [if_neg ha] at h
      obtain ⟨hhit, pre, suf, hsplit, hpre⟩ := ih h
      refine ⟨hhit, a :: pre, suf, by rw [hsplit]; rfl, ?_⟩
      intro p hp
      rcases List.mem_cons.mp hp with rfl | hp
      · simpa using ha
      · exact hpre p hp

theorem checkCollisionList_exists (carX carY carW carH : ℝ) (l : List GameObs)
    (h : ∃ o ∈ l, hitBy carX carY carW carH o = true) :
    ∃ o, checkCollisionList carX carY carW carH l = some o
      ∧ hitBy carX carY carW carH o = true := by
  induction l with
  | nil => simp at h
  | cons a tl ih =>
    unfold checkCollisionList
    by_cases ha : hitBy carX carY carW carH a
    · exact ⟨a, by rw [if_pos ha], ha⟩
    · rw [if_neg ha]
      apply ih
      obtain ⟨o, ho, hhit⟩ := h
      rcases List.mem_cons.mp ho with rfl | ho
      · exact absurd hhit (by simpa using ha)
      · exact ⟨o, ho, hhit⟩

/-- C8: the collision check iterates over the procedural/user obstacles first and
then the resolved detections; it returns none exactly when no obstacle's
rectangle strictly overlaps the vehicle rectangle on both axes (the overlap test
is the strict-inequality AABB test, so touching edges do not count), it returns
an overlapping obstacle whenever one exists, and the obstacle returned is the
first overlapping one in iteration order. -/
theorem c8_collision_first_overlap (s : ManagerState) (carX carY carW carH : ℝ) :
    (getAllList s
        = s.obstacles.map GameObs.world ++ (positionDetected s).2.map GameObs.det)
    ∧ (∀ o : GameObs, hitBy carX carY carW carH o = true
        ↔ (carX < o.x - o.width / 2 + o.width ∧ carX + carW > o.x - o.width / 2
          ∧ carY < o.y - o.height / 2 + o.height ∧ carY + carH > o.y - o.height / 2))
    ∧ ((∀ o ∈ getAllList s, hitBy carX carY carW carH o = false) →
        checkCollision s carX carY carW carH = none)
    ∧ (∀ o : GameObs, checkCollision s carX carY carW carH = some o →
        hitBy carX carY carW carH o = true
        ∧ ∃ pre suf, getAllList s = pre ++ o :: suf
            ∧ ∀ p ∈ pre, hitBy carX carY carW carH p = false)
    ∧ ((∃ o ∈ getAllList s, hitBy carX carY carW carH o = true) →
        ∃ o, checkCollision s carX carY carW carH = some o
          ∧ hitBy carX carY carW carH o = true) := by
  refine ⟨rfl, ?_, ?_, ?_, ?_⟩
  · intro o
    simp [hitBy, rectanglesCollide]
  · exact checkCollisionList_none carX carY carW carH (getAllList s)
  · exact fun o => checkCollisionList_some carX carY carW carH (getAllList s) o
  · exact checkCollisionList_exists carX carY carW carH (getAllList s)

/-- C8 witness: a state with one far-away obstacle produces no collision for a
vehicle rectangle at the reference point. -/
theorem c8_witness :
    checkCollision ⟨[⟨"random_1", WKind.random, "cone", 100, 100, 30, 30, "#FF6B6B"⟩],
        2, [], 0⟩ 618 611 44 78 = none := by
  apply (c8_collision_first_overlap
    ⟨[⟨"random_1", WKind.random, "cone", 100, 100, 30, 30, "#FF6B6B"⟩], 2, [], 0⟩
    618 611 44 78).2.2.1
  intro o ho
  simp only [getAllList, positionDetected, mergedDetections, resolveList,
    List.foldl_nil, List.map_nil, List.append_nil, List.map_cons,
    List.mem_singleton] at ho
  subst ho
  simp only [hitBy, rectanglesCollide, GameObs.x, GameObs.y, GameObs.width,
    GameObs.height]
  rw [decide_eq_false]
  rintro ⟨h1, -, -, -⟩
  norm_num at h1

/-- The geometric road mode computed by `Renderer.drawRoad`. -/
inductive RoadModel
  | straight
  | curved (cx cy rInner rOuter : ℝ)

/-- The curvature selection of `Renderer.drawRoad`: below 0.5 degrees of absolute
steering the road is straight; otherwise it is an annular band of the circle with
radius `d = H / sin(|steering| in radians)`, centre at the reference point's
vertical level, offset right (positive steering) or left (negative) of the road
centreline, with edge radii `d` minus/plus half the road width. -/
noncomputable def roadModel (steeringDeg : ℝ) : RoadModel :=
  let absTheta := |steeringDeg|
  if absTheta < 1 / 2 then RoadModel.straight
  else
    let thetaRad := absTheta * Real.pi / 180
    let d := CONFIG.canvasHeight / Real.sin thetaRad
    let cx := if steeringDeg > 0 then CONFIG.canvasWidth / 2 + d
      else CONFIG.canvasWidth / 2 - d
    RoadModel.curved cx CONFIG.referenceY
      (d - CONFIG.roadWidth / 2) (d + CONFIG.roadWidth / 2)

/-- C9 (amended): steering below the 0.5 degree threshold in absolute value
(including 0) selects straight mode; at or above the threshold the road is the
annular band with radius `d = canvasHeight / sin(|steering| rad)` centred at the
reference point's vertical level and edge radii `d` minus/plus half the road
width; and for threshold-or-larger steering of absolute value below 180 degrees
the circle centre lies right of the road centreline for positive steering and
left of it for negative steering (offset by the positive radius `d`). -/
theorem c9_road_mode (steeringDeg : ℝ) :
    (|steeringDeg| < 1 / 2 → roadModel steeringDeg = RoadModel.straight)
    ∧ (1 / 2 ≤ |steeringDeg| →
        roadModel steeringDeg = RoadModel.curved
          (if steeringDeg > 0 then
              CONFIG.canvasWidth / 2
                + CONFIG.canvasHeight / Real.sin (|steeringDeg| * Real.pi / 180)
            else CONFIG.canvasWidth / 2
                - CONFIG.canvasHeight / Real.sin (|steeringDeg| * Real.pi / 180))
          CONFIG.referenceY
          (CONFIG.canvasHeight / Real.sin (|steeringDeg| * Real.pi / 180)
            - CONFIG.roadWidth / 2)
          (CONFIG.canvasHeight / Real.sin (|steeringDeg| * Real.pi / 180)
            + CONFIG.roadWidth / 2))
    ∧ (1 / 2 ≤ steeringDeg → steeringDeg < 180 →
        ∃ d : ℝ, 0 < d ∧ roadModel steeringDeg
          = RoadModel.curved (CONFIG.canvasWidth / 2 + d) CONFIG.referenceY
              (d - CONFIG.roadWidth / 2) (d + CONFIG.roadWidth / 2))
    ∧ (-180 < steeringDeg → steeringDeg ≤ -(1 / 2) →
        ∃ d : ℝ, 0 < d ∧ roadModel steeringDeg
          = RoadModel.curved (CONFIG.canvasWidth / 2 - d) CONFIG.referenceY
              (d - CONFIG.roadWidth / 2) (d + CONFIG.roadWidth / 2)) := by
  have hpi := Real.pi_pos
  refine ⟨?_, ?_, ?_, ?_⟩
  · intro h
    unfold roadModel
    rw [if_pos h]
  · intro h
    unfold roadModel
    rw [if_neg (not_lt.mpr h)]
  · intro h1 h2
    have habs : |steeringDeg| = steeringDeg := abs_of_pos (by linarith)
    have hsin : 0 < Real.sin (steeringDeg * Real.pi / 180) :=
      Real.sin_pos_of_pos_of_lt_pi (by positivity) (by nlinarith)
    refine ⟨CONFIG.canvasHeight / Real.sin (steeringDeg * Real.pi / 180),
      div_pos (by norm_num [CONFIG]) hsin, ?_⟩
    unfold roadModel
    rw [if_neg (not_lt.mpr (by rw [habs]; linarith))]
    simp only [habs]
    rw [if_pos (by linarith : steeringDeg > 0)]
  · intro h1 h2
    have habs : |steeringDeg| = -steeringDeg := abs_of_neg (by linarith)
    have hsin : 0 < Real.sin (-steeringDeg * Real.pi / 180) :=
      Real.sin_pos_of_pos_of_lt_pi (by nlinarith) (by nlinarith)
    refine ⟨CONFIG.canvasHeight / Real.sin (-steeringDeg * Real.pi / 180),
      div_pos (by norm_num [CONFIG]) hsin, ?_⟩
    unfold roadModel
    rw [if_neg (not_lt.mpr (by rw [habs]; linarith))]
    simp only [habs]
    rw [if_neg (by linarith : ¬ steeringDeg > 0)]

/-- C9 witness: steering 0 selects straight mode and steering 10 selects curved
mode with the circle centre offset to the right of the centreline. -/
theorem c9_witness :
    roadModel 0 = RoadModel.straight
    ∧ (∃ d : ℝ, 0 < d ∧ roadModel 10
        = RoadModel.curved (CONFIG.canvasWidth / 2 + d) CONFIG.referenceY
            (d - CONFIG.roadWidth / 2) (d + CONFIG.roadWidth / 2)) :=
  ⟨(c9_road_mode 0).1 (by norm_num),
   (c9_road_mode 10).2.2.1 (by norm_num) (by norm_num)⟩

/-- C9 counterexample to the claim as stated: at the positive steering angle of
270 degrees (at or above the threshold) `sin` is negative, so the radius
`d = 900 / sin(270°) = -900` is negative and the circle centre x is
`640 + (-900) = -260`, which lies LEFT of the road centreline 640 — the
"right of center for positive steering" clause fails for angles of 180 degrees
or more. -/
theorem c9_counterexample :
    roadModel 270 = RoadModel.curved (-260) 650 (-1225) (-575)
    ∧ ((-260 : ℝ) < 1280 / 2) := by
  have hsin : Real.sin ((270 : ℝ) * Real.pi / 180) = -1 := by
    have h1 : (270 : ℝ) * Real.pi / 180 = Real.pi + Real.pi / 2 := by ring
    rw [h1, Real.sin_add, Real.sin_pi, Real.cos_pi, Real.sin_pi_div_two,
      Real.cos_pi_div_two]
    ring
  constructor
  · have habs : |(270 : ℝ)| = 270 := by norm_num
    unfold roadModel
    rw [if_neg (by rw [habs]; norm_num)]
    simp only [habs]
    rw [if_pos (by norm_num : (270 : ℝ) > 0), hsin]
    norm_num [CONFIG]
  · norm_num

/-- C4: `distanceToY` is monotonically non-decreasing, its value always lies in
`[minY, maxY] = [50, 601]`, `distanceToY 0 = 50` (minY), `distanceToY 255 = 601`
(maxY), and inputs below 0 (resp. above 255) are clamped to `minY` (resp. `maxY`). -/
theorem c4_distanceToY_monotone_clamped :
    (∀ d₁ d₂ : ℝ, d₁ ≤ d₂ → distanceToY d₁ ≤ distanceToY d₂)
    ∧ (∀ d : ℝ, 50 ≤ distanceToY d ∧ distanceToY d ≤ 601)
    ∧ distanceToY 0 = 50
    ∧ distanceToY 255 = 601
    ∧ (∀ d : ℝ, d < 0 → distanceToY d = 50)
    ∧ (∀ d : ℝ, 255 < d → distanceToY d = 601) := by
  have hmaxY : CONFIG.referenceY - CONFIG.carHeight / 2 - 10 = (601 : ℝ) := by
    simp [CONFIG]; norm_num
  have hval : ∀ d : ℝ, distanceToY d = 50 + min (max (d / 255) 0) 1 * 551 := by
    intro d
    simp only [distanceToY, hmaxY]
    norm_num
  refine ⟨?_, ?_, ?_, ?_, ?_, ?_⟩
  · intro d₁ d₂ h
    rw [hval, hval]
    have : min (max (d₁ / 255) 0) 1 ≤ min (max (d₂ / 255) 0) 1 := by
      apply min_le_min _ le_rfl
      apply max_le_max _ le_rfl
      linarith
    nlinarith
  · intro d
    rw [hval]
    have hm0 : (0 : ℝ) ≤ min (max (d / 255) 0) 1 :=
      le_min (le_max_right _ _) (by norm_num)
    have hm1 : min (max (d / 255) 0) 1 ≤ (1 : ℝ) := min_le_right _ _
    constructor
    · nlinarith
    · nlinarith
  · rw [hval]; norm_num
  · rw [hval]; norm_num
  · intro d hd
    rw [hval]
    have h1 : max (d / 255) 0 = 0 := by
      apply max_eq_right
      nlinarith
    rw [h1]
    norm_num
  · intro d hd
    rw [hval]
    have h1 : max (d / 255) 0 = d / 255 := by
      apply max_eq_left
      nlinarith
    have h2 : min (d / 255) 1 = 1 := by
      apply min_eq_right
      nlinarith
    rw [h1, h2]
    norm_num

/-- C4 witness: the monotonicity and clamping facts evaluated at concrete depths. -/
theorem c4_witness :
    distanceToY 100 ≤ distanceToY 200 ∧ distanceToY (-7) = 50 ∧ distanceToY 300 = 601 :=
  ⟨c4_distanceToY_monotone_clamped.1 100 200 (by norm_num),
   c4_distanceToY_monotone_clamped.2.2.2.2.1 (-7) (by norm_num),
   c4_distanceToY_monotone_clamped.2.2.2.2.2 300 (by norm_num)⟩
